import Mathlib

/-!
Shallow embedding of the spectral-algebra core of `synphot/spectrum.py`
(classes `BaseSpectrum`, `BaseUnitlessSpectrum`, `SourceSpectrum`,
`SpectralElement`).

Numeric arrays become `List ℚ`; the two concrete spectrum classes become the
tagged `Variant` type; Python dictionaries (metadata, warnings) become
association lists with Python-dict update semantics; fallible code returns
`Except SynErr`.

The collaborator modules `synphot.utils`, `synphot.units` and
`synphot.analytic` are not part of the given source tree; the definitions
that stand in for them are marked `Modelled from the spec:` and follow the
natural-language specification (sections 4.1, 4.3, 6 of the spec).
-/

/-- The two concrete spectrum variants (`SourceSpectrum` / `SpectralElement`). -/
inductive Variant
  | source
  | passband
deriving DecidableEq, Repr

/-- Python class name of a variant, as produced by `self.__class__.__name__`. -/
def className : Variant → String
  | .source => "SourceSpectrum"
  | .passband => "SpectralElement"

/-- Wavelength unit, abstracted to its physical type (one canonical unit per
physical type: Angstrom, Hz, inverse cm). -/
inductive WaveUnit
  | length
  | frequency
  | wavenumber
deriving DecidableEq, Repr

/-- Flux / throughput units that appear in the source: the linear
flux-density units accepted by `SourceSpectrum._validate_flux_unit`
(PHOTLAM, PHOTNU, FLAM, FNU, Jy), the dimensionless THROUGHPUT unit,
the magnitude-system units (OBMAG, VEGAMAG, STMAG, ABMAG, plain mag)
and the count unit. -/
inductive FluxUnit
  | photlam
  | photnu
  | flam
  | fnu
  | jy
  | throughput
  | obmag
  | vegamag
  | stmag
  | abmag
  | mag
  | count
deriving DecidableEq, Repr

/-- Whether `unit.decompose() == u.mag` holds for the unit. -/
def FluxUnit.decomposeMag : FluxUnit → Bool
  | .obmag | .vegamag | .stmag | .abmag | .mag => true
  | _ => false

/-- Errors raised by the spectrum code: `SynphotError`,
`IncompatibleSources`, `DisjointError`, `PartialOverlap`, the three
wavelength-validation errors, and the Python `KeyError` / `IndexError`
that unguarded dict/array accesses can raise. -/
inductive SynErr
  | synphotError (msg : String)
  | incompatibleSources (msg : String)
  | disjointError (msg : String)
  | overlapPartialError (msg : String)
  | duplicateWavelength
  | unsortedWavelength
  | zeroWavelength
  | keyError
  | indexError
deriving DecidableEq, Repr

deriving instance DecidableEq for Except

/-- True exactly for `IncompatibleSources` results. -/
def isIncompatibleErr {α : Type} : Except SynErr α → Bool
  | .error (.incompatibleSources _) => true
  | _ => false

/-- True exactly for `DisjointError` results. -/
def isDisjointErr {α : Type} : Except SynErr α → Bool
  | .error (.disjointError _) => true
  | _ => false

/-- True exactly for `PartialOverlap` results. -/
def isOverlapPartialErr {α : Type} : Except SynErr α → Bool
  | .error (.overlapPartialError _) => true
  | _ => false

/-- True exactly for `SynphotError` results. -/
def isSynphotErr {α : Type} : Except SynErr α → Bool
  | .error (.synphotError _) => true
  | _ => false

/-- True for the two overlap-gate errors of `renorm`
(`DisjointError`, `PartialOverlap`). -/
def SynErr.isOverlapGate : SynErr → Bool
  | .disjointError _ => true
  | .overlapPartialError _ => true
  | _ => false

/-! ### Python-dict semantics on association lists -/

/-- Lookup of a key (`m[k]` / `k in m`), first binding wins. -/
def lookupStr (k : String) : List (String × String) → Option String
  | [] => none
  | (k', v) :: t => if k' = k then some v else lookupStr k t

/-- `m[k] = v`: replace the binding in place if the key exists, else append. -/
def pySet (m : List (String × String)) (k v : String) : List (String × String) :=
  match m with
  | [] => [(k, v)]
  | (k', v') :: t => if k' = k then (k, v) :: t else (k', v') :: pySet t k v

/-- `m.update(entries)`: set every entry of `entries` into `m`, in order. -/
def pyUpdate (m entries : List (String × String)) : List (String × String) :=
  entries.foldl (fun acc kv => pySet acc kv.1 kv.2) m

/-- `del m[k]` (after the key is known to be present): drop all bindings of `k`. -/
def eraseKey (k : String) (m : List (String × String)) : List (String × String) :=
  m.filter (fun kv => kv.1 != k)

/-! ### Wavelength-grid validation (collaborator `synphot.utils`) -/

/-- Strictly ascending test on adjacent entries. -/
def ascB : List ℚ → Bool
  | [] => true
  | [_] => true
  | x :: y :: t => decide (x < y) && ascB (y :: t)

/-- Strictly descending test on adjacent entries. -/
def descB : List ℚ → Bool
  | [] => true
  | [_] => true
  | x :: y :: t => decide (y < x) && descB (y :: t)

/-- Some adjacent pair is equal. -/
def adjEqB : List ℚ → Bool
  | [] => false
  | [_] => false
  | x :: y :: t => decide (x = y) || adjEqB (y :: t)

/-- Modelled from the spec: `synphot.utils.validate_wavelengths` is not in
the source tree.  Per spec section 4.1, grid validation fails with
duplicate-wavelength, unsorted-wavelength or zero-wavelength errors, and
the monotonic check happens before all else. -/
def validate_wavelengths (wl : List ℚ) : Except SynErr Unit :=
  if ascB wl || descB wl then
    if wl.all (fun x => decide (0 < x)) then .ok () else .error .zeroWavelength
  else if adjEqB wl then .error .duplicateWavelength
  else .error .unsortedWavelength

/-- Modelled from the spec: the trapezoid rule used by
`synphot.utils.trapezoid_integration` (spec sections 4.3, 4.6). -/
def trapezoid_integration : List ℚ → List ℚ → ℚ
  | x1 :: x2 :: xs, y1 :: y2 :: ys =>
      (x2 - x1) * (y1 + y2) / 2 + trapezoid_integration (x2 :: xs) (y2 :: ys)
  | _, _ => 0

/-- Modelled from the spec: `synphot.utils.validate_totalflux` fails with a
domain error when the total flux is zero or otherwise invalid (spec
sections 4.3, 4.4); a non-positive rational is treated as invalid. -/
def validate_totalflux (tf : ℚ) : Except SynErr Unit :=
  if tf ≤ 0 then .error (.synphotError "Integrated flux is not a positive value")
  else .ok ()

/-! ### Wavelength-unit conversion (collaborator `synphot.units`) -/

/-- A rational stand-in for the speed-of-light constant used by spectral
equivalencies (its exact value never matters to the claims). -/
def lightC : ℚ := 299792458

/-- Modelled from the spec: spectral-equivalence value conversion
(length ↔ frequency ↔ wavenumber) supplied by the external unit subsystem
(spec sections 2, 6); frequency = c / wavelength, wavenumber = 1 / wavelength. -/
def convert_wave_value (fromU toU : WaveUnit) (x : ℚ) : ℚ :=
  let lam : ℚ :=
    match fromU with
    | .length => x
    | .frequency => lightC / x
    | .wavenumber => 1 / x
  match toU with
  | .length => lam
  | .frequency => lightC / lam
  | .wavenumber => 1 / lam

/-- Conversion of a whole grid; the identity when the units agree. -/
def convert_wave_values (fromU toU : WaveUnit) (xs : List ℚ) : List ℚ :=
  if fromU = toU then xs else xs.map (convert_wave_value fromU toU)

/-- Modelled from the spec: flux-unit conversion is performed by the external
unit subsystem (spec sections 2, 6 treat it as an out-of-scope collaborator
that is assumed correct); the embedding abstracts the conversion factors
away, keeping the array shape.  No claim settled here depends on the
converted values. -/
def convert_flux_values (_wave : List ℚ) (flux : List ℚ) (_fromU _toU : FluxUnit)
    (_area : Option ℚ) : List ℚ :=
  flux

/-- Modelled from the spec: stand-in for the real-valued base-10 logarithm
used by magnitude renormalization; no claim settled here depends on its
values. -/
def log10Q (_q : ℚ) : ℚ := 0

/-- Modelled from the spec: stand-in for the real-valued power `10 ^ q`
used by `add_mag`; no claim settled here depends on its values. -/
def pow10Q (_q : ℚ) : ℚ := 1

/-! ### The spectrum record and its constructor -/

/-- Validated spectrum state: the attributes set by `BaseSpectrum.__init__`
(`wave`, `flux`, `primary_area`, `metadata`, `warnings`) together with the
variant tag and the units carried by the two Quantity attributes. -/
structure Spectrum where
  variant : Variant
  waveUnit : WaveUnit
  fluxUnit : FluxUnit
  wave : List ℚ
  flux : List ℚ
  primary_area : Option ℚ
  metadata : List (String × String)
  warnings : List (String × String)
deriving DecidableEq, Repr

/-- Variant-specific flux-unit check: `SourceSpectrum._validate_flux_unit`
accepts PHOTLAM, PHOTNU, FLAM (the "unknown physical type" trio) and the
spectral-flux-density units FNU and Jy; `BaseUnitlessSpectrum` requires a
dimensionless unit. -/
def validateFluxUnit (v : Variant) (fu : FluxUnit) : Except SynErr Unit :=
  match v with
  | .source =>
      match fu with
      | .photlam | .photnu | .flam | .fnu | .jy => .ok ()
      | _ => .error (.synphotError
          "Source spectrum cannot operate in this unit, use synphot.units.convert_flux() first.")
  | .passband =>
      match fu with
      | .throughput => .ok ()
      | _ => .error (.synphotError "Throughput unit is not dimensionless")

/-- Clamp one value as `BaseSpectrum._validate_flux_value` does. -/
def clampQ (x : ℚ) : ℚ := if x < 0 then 0 else x

/-- The negative-flux warning text, as formatted by
`BaseSpectrum._validate_flux_value`. -/
def negFluxMsg (nneg total : ℕ) : String :=
  toString nneg ++ " of " ++ toString total ++
    " bins contained negative flux or throughput; they have been set to zero."

/-- `BaseSpectrum._validate_flux_value`: for a non-magnitude unit with a
negative entry, zero the negative entries and record the `NegativeFlux`
warning; otherwise leave the values and the warning map untouched. -/
def clampResult (fl : List ℚ) (fu : FluxUnit) :
    List ℚ × List (String × String) :=
  if fu.decomposeMag = false ∧ fl.any (fun x => decide (x < 0)) then
    (fl.map clampQ,
     [("NegativeFlux",
       negFluxMsg (fl.filter (fun x => decide (x < 0))).length fl.length)])
  else (fl, [])

/-- `BaseSpectrum.__init__` (with the variant-specific `_validate_flux_unit`
dispatched on the tag): validate the flux unit, clamp negative fluxes,
validate the wavelength grid, check the shapes match, and default the
metadata `expr` key to the class name. -/
def mkSpectrum (v : Variant) (wl : List ℚ) (wu : WaveUnit) (fl : List ℚ)
    (fu : FluxUnit) (area : Option ℚ) (header : List (String × String)) :
    Except SynErr Spectrum :=
  (validateFluxUnit v fu) >>= fun _ =>
  (validate_wavelengths wl) >>= fun _ =>
  if wl.length ≠ ((clampResult fl fu).1).length then
    .error (.synphotError "Fluxes expected to have shape of wavelengths")
  else
    .ok { variant := v
          waveUnit := wu
          fluxUnit := fu
          wave := wl
          flux := (clampResult fl fu).1
          primary_area := area
          metadata :=
            if (lookupStr "expr" header).isNone then
              pySet header "expr" (className v)
            else header
          warnings := (clampResult fl fu).2 }

/-! ### Resampling (`BaseSpectrum.resample`, built on `numpy.interp`) -/

/-- `numpy.interp` on a strictly ascending sample grid: clamp to the end
values outside the domain, linear interpolation inside. -/
def npInterp (x : ℚ) : List ℚ → List ℚ → ℚ
  | x0 :: x1 :: xs, y0 :: y1 :: ys =>
      if x ≤ x0 then y0
      else if x ≤ x1 then y0 + (y1 - y0) * (x - x0) / (x1 - x0)
      else npInterp x (x1 :: xs) (y1 :: ys)
  | [_], [y0] => y0
  | _, _ => 0

/-- Interpolation against the sample grid, after the target has been
normalized to ascending order: `numpy.interp` directly on an ascending
sample grid, or on the flipped grid (with a final re-flip) on a descending
one. -/
def resampleCore (oldW nw fl : List ℚ) (oldasc : Bool) : List ℚ :=
  if oldasc then nw.map (fun x => npInterp x oldW fl)
  else (nw.map (fun x => npInterp x oldW.reverse fl.reverse)).reverse

/-- Value part of `BaseSpectrum.resample`: orientation bookkeeping around
`numpy.interp` exactly as in the source (flip the target if it is not
ascending, flip the sample grid if it is not ascending, re-flip when the
two orientations differ). -/
def resampleValues (oldW newW fl : List ℚ) : List ℚ :=
  if decide (newW.headD 0 < newW.getLastD 0) =
      decide (oldW.headD 0 < oldW.getLastD 0) then
    resampleCore oldW
      (if decide (newW.headD 0 < newW.getLastD 0) then newW else newW.reverse)
      fl (decide (oldW.headD 0 < oldW.getLastD 0))
  else
    (resampleCore oldW
      (if decide (newW.headD 0 < newW.getLastD 0) then newW else newW.reverse)
      fl (decide (oldW.headD 0 < oldW.getLastD 0))).reverse

/-- `BaseSpectrum.resample`: validate the given wavelengths, convert the
spectrum's own grid to the given unit, and interpolate. -/
def Spectrum.resample (s : Spectrum) (wl : List ℚ) (wlU : WaveUnit) :
    Except SynErr (List ℚ) :=
  (validate_wavelengths wl) >>= fun _ =>
  .ok (resampleValues (convert_wave_values s.waveUnit wlU s.wave) wl s.flux)

/-! ### Grid merging (`BaseSpectrum.merge_wave`) -/

/-- Insert into an ascending duplicate-free list. -/
def insertAsc (x : ℚ) : List ℚ → List ℚ
  | [] => [x]
  | y :: t => if x < y then x :: y :: t else if x = y then y :: t else y :: insertAsc x t

/-- Modelled from the spec: `synphot.utils.merge_wavelengths` is not in the
source tree.  Per spec section 4.1, the merge is the union of the distinct
values of both grids, sorted ascending under the default configuration. -/
def merge_wavelengths (a b : List ℚ) : List ℚ :=
  (a ++ b).foldr insertAsc []

/-- `BaseSpectrum.merge_wave`: convert the other grid into this spectrum's
wavelength unit, then merge. -/
def Spectrum.merge_wave (s other : Spectrum) : List ℚ :=
  merge_wavelengths s.wave (convert_wave_values other.waveUnit s.waveUnit other.wave)

/-! ### Integration (`BaseSpectrum.integrate`) -/

/-- `BaseSpectrum.integrate`: trapezoid integration over the spectrum's own
grid, or over given wavelengths after resampling onto them. -/
def Spectrum.integrate (s : Spectrum) (wl : Option (List ℚ)) : Except SynErr ℚ :=
  match wl with
  | none => .ok (trapezoid_integration s.wave s.flux)
  | some w => (s.resample w s.waveUnit) >>= fun y => .ok (trapezoid_integration w y)

/-! ### Overlap classification (`BaseSpectrum.check_overlap`) -/

/-- Result of overlap classification: the source's string results (full,
partial_most, partial_notmost, none, and the unrefined intermediate one)
become `full`, `mostlyIn`, `notMostlyIn`, `noOverlap` and `splitOverlap`. -/
inductive OverlapStatus
  | full
  | splitOverlap
  | mostlyIn
  | notMostlyIn
  | noOverlap
deriving DecidableEq, Repr

/-- Minimum of a wavelength list (`numpy` `.min()`), with junk default 0 on
an empty list. -/
def wmin (l : List ℚ) : ℚ := l.foldl min (l.headD 0)

/-- Maximum of a wavelength list (`numpy` `.max()`), with junk default 0 on
an empty list. -/
def wmax (l : List ℚ) : ℚ := l.foldl max (l.headD 0)

/-- Modelled from the spec: `synphot.utils.overlap_status` is not in the
source tree.  Per spec section 4.3, the bounds of the two non-zero subsets
are compared: containment (or equality) of the first range in the second is
`full`, disjointness is `none`, anything else is the unrefined intermediate
`splitOverlap`.  An empty first
range is vacuously contained; a non-empty first range cannot meet an empty
second range. -/
def overlap_status (a b : List ℚ) : OverlapStatus :=
  if a.isEmpty then .full
  else if b.isEmpty then .noOverlap
  else if wmin b ≤ wmin a ∧ wmax a ≤ wmax b then .full
  else if wmax a < wmin b ∨ wmax b < wmin a then .noOverlap
  else .splitOverlap

/-- Wavelengths of a spectrum at which the flux/throughput is non-zero
(`x.wave[x.flux.value != 0]`). -/
def nonzero_waves (s : Spectrum) : List ℚ :=
  (s.wave.zip s.flux).filterMap (fun p => if p.2 = 0 then none else some p.1)

/-- The flux excluded from the overlap: the left tail `[a_min, b_min]` and
the right tail `[b_max, a_max]` of `self`, each integrated after resampling,
exactly as in `BaseSpectrum.check_overlap`. -/
def excluded_flux (s : Spectrum) (a b : List ℚ) : Except SynErr ℚ :=
  (if wmin a < wmin b then s.integrate (some [wmin a, wmin b]) else .ok 0) >>= fun e1 =>
  (if wmax b < wmax a then s.integrate (some [wmax b, wmax a]) else .ok 0) >>= fun e2 =>
  .ok (e1 + e2)

/-- The other spectrum's non-zero wavelength subset, converted into `self`'s
wavelength unit, as computed inside `check_overlap`. -/
def other_nzw (s other : Spectrum) : List ℚ :=
  convert_wave_values other.waveUnit s.waveUnit (nonzero_waves other)

/-- `BaseSpectrum.check_overlap`: classify using the non-zero wavelength
subsets; on the unrefined intermediate result, validate the total flux and
refine by whether the excluded fraction is below the threshold. -/
def Spectrum.check_overlap (s other : Spectrum) (threshold : ℚ) :
    Except SynErr OverlapStatus :=
  match overlap_status (nonzero_waves s) (other_nzw s other) with
  | .splitOverlap =>
      (validate_totalflux (trapezoid_integration s.wave s.flux)) >>= fun _ =>
      (excluded_flux s (nonzero_waves s) (other_nzw s other)) >>= fun ex =>
      if ex / trapezoid_integration s.wave s.flux < threshold then .ok .mostlyIn
      else .ok .notMostlyIn
  | r => .ok r

/-! ### Arithmetic (`BaseSpectrum._operate_on` and the operator methods) -/

/-- The four operation types of `_operate_on`. -/
inductive OpType
  | add
  | sub
  | mul
  | div
deriving DecidableEq, Repr

/-- The right operand: a scalar number or another spectrum. -/
inductive Operand
  | scalar (x : ℚ)
  | spec (s : Spectrum)
deriving DecidableEq, Repr

/-- Scalar operation applied to the flux values (NumPy broadcast). -/
def scalarApply (op : OpType) (fl : List ℚ) (x : ℚ) : List ℚ :=
  match op with
  | .add => fl.map (fun y => y + x)
  | .sub => fl.map (fun y => y - x)
  | .mul => fl.map (fun y => y * x)
  | .div => fl.map (fun y => y / x)

/-- Elementwise operation on two resampled flux arrays. -/
def applyOp (op : OpType) (f1 f2 : List ℚ) : List ℚ :=
  match op with
  | .add => List.zipWith (· + ·) f1 f2
  | .sub => List.zipWith (· - ·) f1 f2
  | .mul => List.zipWith (· * ·) f1 f2
  | .div => List.zipWith (· / ·) f1 f2

/-- Tail of `_operate_on`: merge the metadata (the base map is the right
operand's metadata, deep-copied, or the empty map for a scalar operation;
`self`'s entries overwrite), delete the `expr` key (a `KeyError` if absent,
as in Python), and construct the result through the class constructor. -/
def opFinish (s : Spectrum) (baseMd : List (String × String)) (nw res : List ℚ) :
    Except SynErr Spectrum :=
  if (lookupStr "expr" (pyUpdate baseMd s.metadata)).isNone then .error .keyError
  else
    mkSpectrum s.variant nw s.waveUnit res s.fluxUnit s.primary_area
      (eraseKey "expr" (pyUpdate baseMd s.metadata))

/-- The `mag`-versus-linear-flux compatibility check of `_operate_on`. -/
def magMixViolation (u1 u2 : FluxUnit) : Prop :=
  (u1.decomposeMag = true ∧ u2 ≠ .throughput ∧ u2.decomposeMag = false) ∨
  (u1.decomposeMag = false ∧ u2.decomposeMag = true)

instance (u1 u2 : FluxUnit) : Decidable (magMixViolation u1 u2) :=
  inferInstanceAs (Decidable (_ ∨ _))

/-- The flux array of the right operand as used by `_operate_on`: for
addition and subtraction the right operand is first converted (on a deep
copy) into `self`'s flux unit; otherwise its own unit is kept.  (The
unitless variant's `convert_flux` merely returns the throughput.) -/
def rhsFlux (s o : Spectrum) (op : OpType) (nw : List ℚ) :
    Except SynErr (List ℚ) :=
  if op = .add ∨ op = .sub then
    (match o.variant with
     | .passband => .ok o
     | .source =>
        (validateFluxUnit .source s.fluxUnit) >>= fun _ =>
        .ok { o with
              flux := convert_flux_values o.wave o.flux o.fluxUnit s.fluxUnit o.primary_area
              fluxUnit := s.fluxUnit }) >>= fun o2 =>
    o2.resample nw s.waveUnit
  else o.resample nw s.waveUnit

/-- Spectrum-operand branch of `BaseSpectrum._operate_on`: check, in source
order, the collecting areas, the dimensionlessness rules for division and
multiplication, the same-variant rule for addition/subtraction and the
mag/linear mixing rule, then resample both operands onto the merged grid
and combine elementwise. -/
def operate_on_spec (s o : Spectrum) (op : OpType) : Except SynErr Spectrum :=
  if s.primary_area ≠ o.primary_area then
    .error (.incompatibleSources "Areas covered by flux are not the same")
  else if op = .div ∧ o.fluxUnit ≠ .throughput then
    .error (.incompatibleSources "The other spectrum must be dimensionless in / op")
  else if op = .mul ∧ s.fluxUnit ≠ .throughput ∧ o.fluxUnit ≠ .throughput then
    .error (.incompatibleSources "One of the spectra must be dimensionless in * op")
  else if (op = .add ∨ op = .sub) ∧ s.variant ≠ o.variant then
    .error (.incompatibleSources "Cannot mix the two spectrum classes in + or - op")
  else if magMixViolation s.fluxUnit o.fluxUnit then
    .error (.incompatibleSources "Operation between mag and linear flux is not allowed")
  else
    (s.resample (s.merge_wave o) s.waveUnit) >>= fun f1 =>
    (rhsFlux s o op (s.merge_wave o)) >>= fun f2 =>
    opFinish s o.metadata (s.merge_wave o) (applyOp op f1 f2)

/-- `BaseSpectrum._operate_on`: scalar operations skip all compatibility
checks and use `self`'s own grid; spectrum operations go through the check
chain above. -/
def operate_on (s : Spectrum) (other : Operand) (op : OpType) :
    Except SynErr Spectrum :=
  match other with
  | .scalar x => opFinish s [] s.wave (scalarApply op s.flux x)
  | .spec o => operate_on_spec s o op

/-- Top-level Python dispatch for `a * b`: `BaseUnitlessSpectrum.__mul__`
delegates to the source spectrum's multiplication when the other operand is
a `SourceSpectrum`; every other combination goes through `a`'s own
`_operate_on`. -/
def specMulDispatch (a b : Spectrum) : Except SynErr Spectrum :=
  if a.variant = .passband ∧ b.variant = .source then operate_on b (.spec a) .mul
  else operate_on a (.spec b) .mul

/-! ### Unit conversion methods -/

/-- `convert_flux`: the unitless variant merely returns its throughput; the
source variant validates the requested unit and converts in place. -/
def Spectrum.convert_flux (s : Spectrum) (outU : FluxUnit) :
    Except SynErr Spectrum :=
  match s.variant with
  | .passband => .ok s
  | .source =>
      (validateFluxUnit .source outU) >>= fun _ =>
      .ok { s with
            flux := convert_flux_values s.wave s.flux s.fluxUnit outU s.primary_area
            fluxUnit := outU }

/-! ### Tapering (`BaseSpectrum.taper`) -/

/-- `BaseSpectrum.taper`: when an end flux is non-zero, insert a zero-flux
point whose wavelength extends the grid by the ratio of the two boundary
points; skipped when the ends are already zero.  Array accesses that Python
would reject (`flux[0]` on an empty array, `wave[1]` or `wave[-2]` on a
too-short grid) surface as `indexError`. -/
def Spectrum.taper (s : Spectrum) : Except SynErr Spectrum :=
  if s.flux = [] then .error .indexError
  else
    (if s.flux.headD 0 ≠ 0 then
       if s.wave.length < 2 then .error .indexError
       else .ok ((s.wave.headD 0 * s.wave.headD 0 / s.wave.getD 1 0) :: s.wave,
                 (0 : ℚ) :: s.flux)
     else .ok (s.wave, s.flux)) >>= fun wf =>
    (if wf.2.getLastD 0 ≠ 0 then
       if wf.1.length < 2 then .error .indexError
       else .ok (wf.1 ++ [wf.1.getLastD 0 * wf.1.getLastD 0 / wf.1.getD (wf.1.length - 2) 0],
                 wf.2 ++ [(0 : ℚ)])
     else .ok (wf.1, wf.2)) >>= fun wf2 =>
    .ok { s with wave := wf2.1, flux := wf2.2 }

/-! ### Source-spectrum specific operations -/

/-- A Python argument that is expected to be a number but might not be. -/
inductive PyVal
  | num (q : ℚ)
  | nonNumeric
deriving DecidableEq, Repr

/-- `SourceSpectrum.add_mag` after the argument checks: scalar addition for
magnitude-unit flux, multiplication by `10 ^ (-0.4 mag)` for linear flux. -/
def Spectrum.add_mag (s : Spectrum) (magval : ℚ) : Except SynErr Spectrum :=
  if s.fluxUnit.decomposeMag then operate_on s (.scalar magval) .add
  else operate_on s (.scalar (pow10Q (-(2 / 5) * magval))) .mul

/-- `SourceSpectrum.apply_redshift`: reject a non-numeric redshift, scale a
length-type grid by `(1 + z)` and divide a frequency/wavenumber-type grid by
`(1 + z)`, then rebuild through the constructor with the `expr` metadata
updated to note the redshift. -/
def Spectrum.apply_redshift (s : Spectrum) (z : PyVal) : Except SynErr Spectrum :=
  match z with
  | .nonNumeric => .error (.synphotError "Redshift must be a number.")
  | .num zq =>
      match lookupStr "expr" s.metadata with
      | none => .error .keyError
      | some expr0 =>
          let fac := 1 + zq
          let newWave :=
            if s.waveUnit = .length then s.wave.map (fun w => w * fac)
            else s.wave.map (fun w => w / fac)
          mkSpectrum s.variant newWave s.waveUnit s.flux s.fluxUnit s.primary_area
            (pySet s.metadata "expr" (expr0 ++ " at z=" ++ toString zq))

/-! ### Renormalization (`SourceSpectrum.renorm`) -/

/-- The renormalization target value: a plain number (taken to be in
`self`'s flux unit) or a Quantity with its own unit. -/
inductive RenormVal
  | num (q : ℚ)
  | qty (q : ℚ) (u : FluxUnit)
deriving DecidableEq, Repr

/-- Modelled from the spec: the analytic-spectrum collaborator generates a
flat spectrum of amplitude one in the target unit over the band's
wavelength grid (spec sections 4.4, 6), realized through the
source-spectrum constructor. -/
def flat_spectrum (fluxU : FluxUnit) (wl : List ℚ) (wu : WaveUnit)
    (area : Option ℚ) : Except SynErr Spectrum :=
  mkSpectrum .source wl wu (wl.map (fun _ => (1 : ℚ))) fluxU area []

/-- Warning recorded when at least 99 percent of the band has data. -/
def renormWarnMost : String :=
  "Spectrum is not defined everywhere in renormalizationpassband. At least 99% of the band throughput hasdata. Spectrum will be extrapolated at constant value."

/-- Warning recorded when renormalization is forced on a less-than-99-percent
overlap. -/
def renormWarnForce : String :=
  "Spectrum is not defined everywhere in renormalizationpassband. Less than 99% of the band throughput hasdata. Spectrum will be extrapolated at constant value."

/-- The numeric part of the renormalization target. -/
def rvValue (rv : RenormVal) : ℚ :=
  match rv with
  | .num q => q
  | .qty q _ => q

/-- The unit of the renormalization target: a plain number is taken to be in
`self`'s flux unit. -/
def rvUnitOf (s : Spectrum) (rv : RenormVal) : FluxUnit :=
  match rv with
  | .num _ => s.fluxUnit
  | .qty _ u => u

/-- Numeric tail of `renorm` after the overlap gate: flux through the band,
the unit-dependent total/standard flux computation, total-flux validation,
and the magnitude or linear rescaling; the accumulated overlap warnings are
pushed into the result's warning map. -/
def renormCore (s : Spectrum) (rv : RenormVal) (band : Spectrum)
    (vegaspec : Option Spectrum) (warns : List (String × String)) :
    Except SynErr Spectrum :=
  (operate_on s (.spec band) .mul) >>= fun sp =>
  (if rvUnitOf s rv = .count ∨ rvUnitOf s rv = .obmag then
     .ok ((convert_flux_values sp.wave sp.flux sp.fluxUnit .count sp.primary_area).sum,
          (1 : ℚ))
   else
     ((if rvUnitOf s rv = .vegamag then
         match vegaspec with
         | some vg => if vg.variant = .source then .ok vg
                      else .error (.synphotError "Vega spectrum is missing.")
         | none => .error (.synphotError "Vega spectrum is missing.")
       else flat_spectrum (rvUnitOf s rv) band.wave band.waveUnit s.primary_area) >>= fun stdspec =>
      (operate_on stdspec (.spec band) .mul) >>= fun up =>
      (up.convert_flux sp.fluxUnit) >>= fun up2 =>
      .ok (trapezoid_integration sp.wave sp.flux,
           trapezoid_integration up2.wave up2.flux))) >>= fun tot_std =>
  (validate_totalflux tot_std.1) >>= fun _ =>
  (if (rvUnitOf s rv).decomposeMag then
     s.add_mag (rvValue rv + 5 / 2 * log10Q (tot_std.1 / tot_std.2))
   else operate_on s (.scalar (rvValue rv * (tot_std.2 / tot_std.1))) .mul) >>= fun newsp =>
  .ok { newsp with warnings := pyUpdate newsp.warnings warns }

/-- `SourceSpectrum.renorm`: require the band to be a passband, classify the
overlap of the band against `self` (threshold 1 percent), fail on a disjoint
band, fail on a significantly incomplete overlap unless forced, accumulate
the PartialRenorm warning otherwise, then rescale. -/
def Spectrum.renorm (s : Spectrum) (rv : RenormVal) (band : Spectrum)
    (force : Bool) (vegaspec : Option Spectrum) : Except SynErr Spectrum :=
  if band.variant ≠ .passband then
    .error (.synphotError "Renormalization passband must be a SpectralElement.")
  else
    (band.check_overlap s (1 / 100)) >>= fun stat =>
    (match stat, force with
     | .noOverlap, _ =>
        .error (.disjointError "Spectrum and renormalization band are disjoint.")
     | .mostlyIn, _ => .ok [("PartialRenorm", renormWarnMost)]
     | .notMostlyIn, true => .ok [("PartialRenorm", renormWarnForce)]
     | .notMostlyIn, false =>
        .error (.overlapPartialError
          "Spectrum and renormalization band do not fully overlap.")
     | .full, _ => .ok []
     | .splitOverlap, _ =>
        .error (.synphotError "Overlap result is unexpected")) >>= fun warns =>
    renormCore s rv band vegaspec warns

/-! ### The validity invariant established by construction -/

/-- Invariant of a constructed spectrum: valid flux unit for the variant,
valid wavelength grid, matching array lengths, non-negative values, and a
present metadata `expr` key. -/
def Valid (s : Spectrum) : Prop :=
  validateFluxUnit s.variant s.fluxUnit = .ok () ∧
  validate_wavelengths s.wave = .ok () ∧
  s.wave.length = s.flux.length ∧
  (∀ x ∈ s.flux, 0 ≤ x) ∧
  (lookupStr "expr" s.metadata).isSome = true

instance (s : Spectrum) : Decidable (Valid s) :=
  inferInstanceAs (Decidable (_ ∧ _ ∧ _ ∧ _ ∧ _))

/-! ### Basic lemmas about `Except` and the dict operations -/

@[simp]
theorem ok_bind {α β : Type} (a : α) (f : α → Except SynErr β) :
    (Except.ok a : Except SynErr α) >>= f = f a := rfl

@[simp]
theorem error_bind {α β : Type} (e : SynErr) (f : α → Except SynErr β) :
    (Except.error e : Except SynErr α) >>= f = .error e := rfl

theorem exBindOk {α β : Type} {x : Except SynErr α} {f : α → Except SynErr β}
    {b : β} (h : x >>= f = .ok b) : ∃ a, x = .ok a ∧ f a = .ok b := by
  cases x with
  | error e => simp at h
  | ok a => exact ⟨a, rfl, by simpa using h⟩

theorem exBindErr {α β : Type} {x : Except SynErr α} {f : α → Except SynErr β}
    {e : SynErr} (h : x >>= f = .error e) :
    x = .error e ∨ ∃ a, x = .ok a ∧ f a = .error e := by
  cases x with
  | error e' => left; simpa using h
  | ok a => right; exact ⟨a, rfl, by simpa using h⟩

theorem lookup_pySet_self (m : List (String × String)) (k v : String) :
    lookupStr k (pySet m k v) = some v := by
  induction m with
  | nil => simp [pySet, lookupStr]
  | cons kv t ih =>
      by_cases h : kv.1 = k
      · simp [pySet, h, lookupStr]
      · simp [pySet, h, lookupStr, ih]

theorem lookup_pySet_other {k' k : String} (h : k' ≠ k)
    (m : List (String × String)) (v : String) :
    lookupStr k (pySet m k' v) = lookupStr k m := by
  induction m with
  | nil => simp [pySet, lookupStr, h]
  | cons kv t ih =>
      by_cases h2 : kv.1 = k'
      · simp [pySet, h2, lookupStr, h]
      · simp [pySet, h2, lookupStr, ih]

theorem lookup_eraseKey_self (k : String) (m : List (String × String)) :
    lookupStr k (eraseKey k m) = none := by
  induction m with
  | nil => simp [eraseKey, lookupStr]
  | cons kv t ih =>
      by_cases h : kv.1 = k
      · simpa [eraseKey, h] using ih
      · simpa [eraseKey, lookupStr, h] using ih

theorem lookup_pyUpdate_isSome {k : String} {a m : List (String × String)}
    (h : (lookupStr k a).isSome = true ∨ (lookupStr k m).isSome = true) :
    (lookupStr k (pyUpdate a m)).isSome = true := by
  induction m generalizing a with
  | nil =>
      rcases h with h | h
      · simpa [pyUpdate] using h
      · simp [lookupStr] at h
  | cons kv t ih =>
      have step : pyUpdate a (kv :: t) = pyUpdate (pySet a kv.1 kv.2) t := rfl
      rw [step]
      by_cases hk : kv.1 = k
      · exact ih (Or.inl (by rw [hk, lookup_pySet_self]; rfl))
      · rcases h with h | h
        · exact ih (Or.inl (by rwa [lookup_pySet_other hk]))
        · simp [lookupStr, hk] at h
          exact ih (Or.inr h)

theorem lookup_pyUpdate_single (w : List (String × String)) (k v : String) :
    lookupStr k (pyUpdate w [(k, v)]) = some v := by
  simp [pyUpdate, lookup_pySet_self]

/-! ### Constructor lemmas -/

theorem clampResult_length (fl : List ℚ) (fu : FluxUnit) :
    ((clampResult fl fu).1).length = fl.length := by
  unfold clampResult
  split <;> simp

theorem clampResult_of_nonneg {fl : List ℚ} (fu : FluxUnit)
    (h : ∀ x ∈ fl, 0 ≤ x) : clampResult fl fu = (fl, []) := by
  have hany : (fl.any fun x => decide (x < 0)) = false := by
    simp only [List.any_eq_false, decide_eq_true_eq]
    exact fun x hx => not_lt.mpr (h x hx)
  unfold clampResult
  rw [if_neg]
  rintro ⟨-, h2⟩
  rw [hany] at h2
  exact absurd h2 (by simp)

theorem clampResult_fst_nonneg {fl : List ℚ} {fu : FluxUnit} :
    ∀ x ∈ (clampResult fl fu).1, (0 : ℚ) ≤ x ∨ x ∈ fl := by
  unfold clampResult
  split
  · intro x hx
    simp only [List.mem_map] at hx
    obtain ⟨y, -, rfl⟩ := hx
    left
    unfold clampQ
    split
    · rfl
    · exact le_of_not_lt (by assumption)
  · intro x hx
    right
    exact hx

theorem clampResult_snd_shape (fl : List ℚ) (fu : FluxUnit) :
    (clampResult fl fu).2 = [] ∨
      ∃ m, (clampResult fl fu).2 = [("NegativeFlux", m)] := by
  unfold clampResult
  split
  · exact Or.inr ⟨_, rfl⟩
  · exact Or.inl rfl

theorem mkSpectrum_ok_inv {v : Variant} {wl : List ℚ} {wu : WaveUnit}
    {fl : List ℚ} {fu : FluxUnit} {area : Option ℚ}
    {hdr : List (String × String)} {s : Spectrum}
    (h : mkSpectrum v wl wu fl fu area hdr = .ok s) :
    s = { variant := v
          waveUnit := wu
          fluxUnit := fu
          wave := wl
          flux := (clampResult fl fu).1
          primary_area := area
          metadata :=
            if (lookupStr "expr" hdr).isNone then pySet hdr "expr" (className v)
            else hdr
          warnings := (clampResult fl fu).2 } := by
  unfold mkSpectrum at h
  obtain ⟨u1, h1, h⟩ := exBindOk h
  obtain ⟨u2, h2, h⟩ := exBindOk h
  split at h
  · cases h
  · exact (Except.ok.injEq _ _).mp h.symm

theorem mkSpectrum_ok_units {v : Variant} {wl : List ℚ} {wu : WaveUnit}
    {fl : List ℚ} {fu : FluxUnit} {area : Option ℚ}
    {hdr : List (String × String)} {s : Spectrum}
    (h : mkSpectrum v wl wu fl fu area hdr = .ok s) :
    validateFluxUnit v fu = .ok () ∧ validate_wavelengths wl = .ok () := by
  unfold mkSpectrum at h
  obtain ⟨u1, h1, h⟩ := exBindOk h
  obtain ⟨u2, h2, h⟩ := exBindOk h
  exact ⟨by cases u1; exact h1, by cases u2; exact h2⟩

theorem mkSpectrum_eq_ok {v : Variant} {wl : List ℚ} {wu : WaveUnit}
    {fl : List ℚ} {fu : FluxUnit} (area : Option ℚ)
    (hdr : List (String × String))
    (hU : validateFluxUnit v fu = .ok ())
    (hW : validate_wavelengths wl = .ok ())
    (hL : wl.length = fl.length) :
    mkSpectrum v wl wu fl fu area hdr =
      .ok { variant := v
            waveUnit := wu
            fluxUnit := fu
            wave := wl
            flux := (clampResult fl fu).1
            primary_area := area
            metadata :=
              if (lookupStr "expr" hdr).isNone then pySet hdr "expr" (className v)
              else hdr
            warnings := (clampResult fl fu).2 } := by
  unfold mkSpectrum
  rw [hU, hW, ok_bind, ok_bind, if_neg]
  rw [clampResult_length]
  exact fun hne => hne hL

theorem validateFluxUnit_not_mag {v : Variant} {fu : FluxUnit}
    (h : validateFluxUnit v fu = .ok ()) : fu.decomposeMag = false := by
  cases v <;> cases fu <;> first | rfl | (simp [validateFluxUnit] at h)

theorem mkSpectrum_valid {v : Variant} {wl : List ℚ} {wu : WaveUnit}
    {fl : List ℚ} {fu : FluxUnit} {area : Option ℚ}
    {hdr : List (String × String)} {s : Spectrum}
    (h : mkSpectrum v wl wu fl fu area hdr = .ok s) : Valid s := by
  have hinv := mkSpectrum_ok_inv h
  have hu := mkSpectrum_ok_units h
  have hlen : wl.length = ((clampResult fl fu).1).length := by
    unfold mkSpectrum at h
    obtain ⟨u1, h1, h⟩ := exBindOk h
    obtain ⟨u2, h2, h⟩ := exBindOk h
    split at h
    · cases h
    · exact not_ne_iff.mp (by assumption)
  subst hinv
  refine ⟨hu.1, hu.2, hlen, ?_, ?_⟩
  · intro x hx
    rcases clampResult_fst_nonneg x hx with h0 | hmem
    · exact h0
    · by_contra hneg
      push_neg at hneg
      have hmag := validateFluxUnit_not_mag hu.1
      have : clampResult fl fu =
          (fl.map clampQ,
           [("NegativeFlux",
             negFluxMsg (fl.filter (fun x => decide (x < 0))).length fl.length)]) := by
        unfold clampResult
        rw [if_pos]
        exact ⟨hmag, by simp only [List.any_eq_true, decide_eq_true_eq]; exact ⟨x, hmem, hneg⟩⟩
      rw [this] at hx
      simp only [List.mem_map] at hx
      obtain ⟨y, -, hy⟩ := hx
      unfold clampQ at hy
      split at hy
      · rw [← hy] at hneg; exact absurd le_rfl (not_le.mpr hneg)
      · rw [← hy] at hneg; exact absurd (le_of_not_lt (by assumption)) (not_le.mpr hneg)
  · dsimp only
    split
    · rw [lookup_pySet_self]; rfl
    · rw [Option.isSome_iff_ne_none]
      intro hn
      exact (by assumption : ¬(lookupStr "expr" hdr).isNone = true) (by rw [hn]; rfl)

/-! ### Inversion lemmas for the arithmetic engine -/

theorem opFinish_ok_inv {s : Spectrum} {base : List (String × String)}
    {nw res : List ℚ} {r : Spectrum}
    (h : opFinish s base nw res = .ok r) :
    r.variant = s.variant ∧ r.waveUnit = s.waveUnit ∧ r.fluxUnit = s.fluxUnit ∧
    r.wave = nw ∧ r.primary_area = s.primary_area ∧
    r.flux = (clampResult res s.fluxUnit).1 ∧
    r.metadata =
      pySet (eraseKey "expr" (pyUpdate base s.metadata)) "expr"
        (className s.variant) ∧
    (r.warnings = [] ∨ ∃ m, r.warnings = [("NegativeFlux", m)]) := by
  unfold opFinish at h
  split at h
  · cases h
  · have hinv := mkSpectrum_ok_inv h
    subst hinv
    refine ⟨rfl, rfl, rfl, rfl, rfl, rfl, ?_, clampResult_snd_shape _ _⟩
    dsimp only
    rw [if_pos (by rw [lookup_eraseKey_self]; rfl)]

theorem operate_on_scalar (s : Spectrum) (x : ℚ) (op : OpType) :
    operate_on s (.scalar x) op = opFinish s [] s.wave (scalarApply op s.flux x) := rfl

theorem operate_on_spec_ok_inv {s o : Spectrum} {op : OpType} {r : Spectrum}
    (h : operate_on s (.spec o) op = .ok r) :
    ∃ f1 f2, s.resample (s.merge_wave o) s.waveUnit = .ok f1 ∧
      rhsFlux s o op (s.merge_wave o) = .ok f2 ∧
      opFinish s o.metadata (s.merge_wave o) (applyOp op f1 f2) = .ok r := by
  have h' : operate_on_spec s o op = .ok r := h
  unfold operate_on_spec at h'
  split at h'
  · cases h'
  · split at h'
    · cases h'
    · split at h'
      · cases h'
      · split at h'
        · cases h'
        · split at h'
          · cases h'
          · obtain ⟨f1, h1, h''⟩ := exBindOk h'
            obtain ⟨f2, h2, h''⟩ := exBindOk h''
            exact ⟨f1, f2, h1, h2, h''⟩

theorem operate_on_ok_variant {s : Spectrum} {other : Operand} {op : OpType}
    {r : Spectrum} (h : operate_on s other op = .ok r) :
    r.variant = s.variant := by
  cases other with
  | scalar x =>
      rw [operate_on_scalar] at h
      exact (opFinish_ok_inv h).1
  | spec o =>
      obtain ⟨f1, f2, -, -, hfin⟩ := operate_on_spec_ok_inv h
      exact (opFinish_ok_inv hfin).1

theorem operate_on_ok_warnings {s : Spectrum} {other : Operand} {op : OpType}
    {r : Spectrum} (h : operate_on s other op = .ok r) :
    r.warnings = [] ∨ ∃ m, r.warnings = [("NegativeFlux", m)] := by
  cases other with
  | scalar x =>
      rw [operate_on_scalar] at h
      exact (opFinish_ok_inv h).2.2.2.2.2.2.2
  | spec o =>
      obtain ⟨f1, f2, -, -, hfin⟩ := operate_on_spec_ok_inv h
      exact (opFinish_ok_inv hfin).2.2.2.2.2.2.2

/-! ### Concrete spectra used by the witnesses -/

/-- A flat source spectrum on an ascending grid. -/
def wsrc : Spectrum where
  variant := .source
  waveUnit := .length
  fluxUnit := .flam
  wave := [1000, 2000, 3000, 4000]
  flux := [1, 1, 1, 1]
  primary_area := none
  metadata := [("expr", "src")]
  warnings := []

/-- The same source spectrum with a collecting area attached. -/
def wsrcA : Spectrum := { wsrc with primary_area := some 50 }

/-- A flat passband on the same grid. -/
def wband : Spectrum where
  variant := .passband
  waveUnit := .length
  fluxUnit := .throughput
  wave := [1000, 2000, 3000, 4000]
  flux := [1, 1, 1, 1]
  primary_area := none
  metadata := [("expr", "band")]
  warnings := []

/-! ### Claim theorems -/

/-- C1: every violated compatibility precondition of a spectrum-spectrum
arithmetic operation — unequal collecting areas, a non-dimensionless right
operand under division, no dimensionless operand under multiplication, or
mixed variants under addition/subtraction — makes `_operate_on` fail with
an incompatible-operands error.  The statement quantifies over arbitrary
wavelength/value arrays inside the two operands, so the error is raised
regardless of (hence before) any array computation, and in the pure
embedding the operands are left unmodified by construction. -/
theorem claim_C1 (s o : Spectrum) (op : OpType)
    (h : s.primary_area ≠ o.primary_area ∨
         (op = .div ∧ o.fluxUnit ≠ .throughput) ∨
         (op = .mul ∧ s.fluxUnit ≠ .throughput ∧ o.fluxUnit ≠ .throughput) ∨
         ((op = .add ∨ op = .sub) ∧ s.variant ≠ o.variant)) :
    isIncompatibleErr (operate_on s (.spec o) op) = true := by
  have he : operate_on s (.spec o) op = operate_on_spec s o op := rfl
  rw [he]
  unfold operate_on_spec
  split_ifs with h1 h2 h3 h4 h5
  · rfl
  · rfl
  · rfl
  · rfl
  · rfl
  · exfalso
    rcases h with h | h | h | h
    · exact h1 h
    · exact h2 h
    · exact h3 h
    · exact h4 h

/-- Witness for C1 at a concrete area mismatch. -/
theorem claim_C1_witness :
    wsrcA.primary_area ≠ wsrc.primary_area ∧
    isIncompatibleErr (operate_on wsrcA (.spec wsrc) .add) = true :=
  ⟨by decide, claim_C1 wsrcA wsrc .add (Or.inl (by decide))⟩

/-- C9: multiplying a passband by a source spectrum delegates to the source
spectrum's multiplication, the product is therefore of the source variant,
and the operation agrees with the product taken in the other order. -/
theorem claim_C9 (p sp : Spectrum) (hp : p.variant = .passband)
    (hs : sp.variant = .source) :
    specMulDispatch p sp = operate_on sp (.spec p) .mul ∧
    specMulDispatch p sp = specMulDispatch sp p ∧
    ∀ r, specMulDispatch p sp = .ok r → r.variant = .source := by
  have h1 : specMulDispatch p sp = operate_on sp (.spec p) .mul := by
    unfold specMulDispatch
    rw [if_pos ⟨hp, hs⟩]
  refine ⟨h1, ?_, ?_⟩
  · rw [h1]
    unfold specMulDispatch
    rw [if_neg]
    rintro ⟨h2, -⟩
    rw [hs] at h2
    cases h2
  · intro r hr
    rw [h1] at hr
    rw [operate_on_ok_variant hr, hs]

/-- Witness for C9 at a concrete passband-times-source product. -/
theorem claim_C9_witness :
    wband.variant = .passband ∧ wsrc.variant = .source ∧
    specMulDispatch wband wsrc = operate_on wsrc (.spec wband) .mul ∧
    specMulDispatch wband wsrc = specMulDispatch wsrc wband :=
  ⟨rfl, rfl, (claim_C9 wband wsrc rfl rfl).1, (claim_C9 wband wsrc rfl rfl).2.1⟩

/-- Success test on an `Except` result. -/
def exOk {α : Type} : Except SynErr α → Bool
  | .ok _ => true
  | .error _ => false

theorem map_clampQ_self {fl : List ℚ} (h : ∀ x ∈ fl, 0 ≤ x) :
    fl.map clampQ = fl := by
  induction fl with
  | nil => rfl
  | cons a t ih =>
      simp only [List.map_cons]
      rw [ih (fun x hx => h x (by simp [hx]))]
      congr 1
      unfold clampQ
      rw [if_neg (not_lt.mpr (h a (by simp)))]

/-- The product `wsrc × wband`, written out. -/
def wprod : Spectrum where
  variant := .source
  waveUnit := .length
  fluxUnit := .flam
  wave := [1000, 2000, 3000, 4000]
  flux := [1, 1, 1, 1]
  primary_area := none
  metadata := [("expr", "SourceSpectrum")]
  warnings := []

/-- C4: the metadata of the result of any spectrum-spectrum operation is the
right operand's metadata updated by the left operand's (left keys win), with
`expr` removed and re-derived by the constructor from the variant name; for
a scalar operation the right operand's metadata is skipped (the base map is
empty); the result never inherits either operand's warning map — the
operands' warning maps are irrelevant to the operation, and the result map
holds at most the constructor's fresh `NegativeFlux` entry.  (Deep copying
is the identity in the value-semantics embedding.) -/
theorem claim_C4 (s o : Spectrum) (op : OpType) :
    (∀ r, operate_on s (.spec o) op = .ok r →
        r.metadata =
          pySet (eraseKey "expr" (pyUpdate o.metadata s.metadata)) "expr"
            (className s.variant)) ∧
    (∀ x r, operate_on s (.scalar x) op = .ok r →
        r.metadata =
          pySet (eraseKey "expr" (pyUpdate [] s.metadata)) "expr"
            (className s.variant)) ∧
    (∀ w1 w2, operate_on { s with warnings := w1 }
        (.spec { o with warnings := w2 }) op = operate_on s (.spec o) op) ∧
    (∀ other r, operate_on s other op = .ok r →
        r.warnings = [] ∨ ∃ m, r.warnings = [("NegativeFlux", m)]) := by
  refine ⟨?_, ?_, ?_, ?_⟩
  · intro r hr
    obtain ⟨f1, f2, -, -, hfin⟩ := operate_on_spec_ok_inv hr
    exact (opFinish_ok_inv hfin).2.2.2.2.2.2.1
  · intro x r hr
    rw [operate_on_scalar] at hr
    exact (opFinish_ok_inv hr).2.2.2.2.2.2.1
  · intro w1 w2
    obtain ⟨v, wu, fu, w, f, pa, md, wn⟩ := s
    obtain ⟨v2, wu2, fu2, w2', f2', pa2, md2, wn2⟩ := o
    show operate_on_spec _ _ op = operate_on_spec _ _ op
    cases v2 <;> cases fu <;> with_unfolding_all rfl
  · intro other r hr
    exact operate_on_ok_warnings hr

theorem operate_wsrc_wband_mul : operate_on wsrc (.spec wband) .mul = .ok wprod := by
  norm_num [operate_on, operate_on_spec, wsrc, wband, wprod, Spectrum.merge_wave,
    merge_wavelengths, insertAsc, convert_wave_values, Spectrum.resample,
    validate_wavelengths, ascB, descB, adjEqB, resampleValues, resampleCore,
    npInterp, rhsFlux, opFinish, mkSpectrum, validateFluxUnit, clampResult,
    clampQ, pyUpdate, pySet, eraseKey, lookupStr, className, negFluxMsg,
    magMixViolation, applyOp, scalarApply, FluxUnit.decomposeMag, wmin, wmax]
  all_goals intro h h2
  all_goals rcases h with h3 | h3 <;> exact absurd h3 (by decide)

/-- Witness for C4 at the concrete product `wsrc × wband`. -/
theorem claim_C4_witness :
    operate_on wsrc (.spec wband) .mul = .ok wprod ∧
    wprod.metadata =
      pySet (eraseKey "expr" (pyUpdate wband.metadata wsrc.metadata)) "expr"
        (className wsrc.variant) :=
  ⟨operate_wsrc_wband_mul,
   (claim_C4 wsrc wband .mul).1 wprod operate_wsrc_wband_mul⟩

/-- The spectrum constructed from value array `[-1, 2, 3]` in FLAM. -/
def spC5 : Spectrum where
  variant := .source
  waveUnit := .length
  fluxUnit := .flam
  wave := [1000, 2000, 3000]
  flux := [0, 2, 3]
  primary_area := none
  metadata := [("expr", "SourceSpectrum")]
  warnings := [("NegativeFlux",
    "1 of 3 bins contained negative flux or throughput; they have been set to zero.")]

/-- C5: for a non-magnitude value unit, construction zeroes the negative
value entries (never raising because of them: success is unchanged by
pre-clamping the input) and, when a negative entry exists, attaches the
`NegativeFlux` warning counting the affected bins; concretely, value array
`[-1, 2, 3]` in FLAM is stored as `[0, 2, 3]` with the warning naming
1 of 3 bins. -/
theorem claim_C5 :
    (∀ (v : Variant) (wl : List ℚ) (wu : WaveUnit) (fl : List ℚ)
        (fu : FluxUnit) (area : Option ℚ) (hdr : List (String × String))
        (s : Spectrum), fu.decomposeMag = false →
        mkSpectrum v wl wu fl fu area hdr = .ok s →
        s.flux = fl.map clampQ ∧
        ((∃ x ∈ fl, x < 0) →
          lookupStr "NegativeFlux" s.warnings =
            some (negFluxMsg (fl.filter (fun x => decide (x < 0))).length
              fl.length))) ∧
    (∀ (v : Variant) (wl : List ℚ) (wu : WaveUnit) (fl : List ℚ)
        (fu : FluxUnit) (area : Option ℚ) (hdr : List (String × String)),
        exOk (mkSpectrum v wl wu fl fu area hdr) =
        exOk (mkSpectrum v wl wu (fl.map clampQ) fu area hdr)) ∧
    mkSpectrum .source [1000, 2000, 3000] .length [-1, 2, 3] .flam none [] =
      .ok spC5 := by
  refine ⟨?_, ?_, by decide⟩
  · intro v wl wu fl fu area hdr s hmag hmk
    have hinv := mkSpectrum_ok_inv hmk
    have hfl : s.flux = (clampResult fl fu).1 := by rw [hinv]
    have hwar : s.warnings = (clampResult fl fu).2 := by rw [hinv]
    by_cases hneg : (fl.any fun x => decide (x < 0)) = true
    · have hc : clampResult fl fu =
          (fl.map clampQ,
           [("NegativeFlux",
             negFluxMsg (fl.filter (fun x => decide (x < 0))).length fl.length)]) := by
        unfold clampResult
        rw [if_pos ⟨hmag, hneg⟩]
      constructor
      · rw [hfl, hc]
      · intro hexi
        rw [hwar, hc]
        simp [lookupStr]
    · have hnn : ∀ x ∈ fl, 0 ≤ x := by
        intro x hx
        by_contra hlt
        push_neg at hlt
        simp only [List.any_eq_true, decide_eq_true_eq] at hneg
        exact hneg ⟨x, hx, hlt⟩
      have hc := clampResult_of_nonneg fu hnn
      constructor
      · rw [hfl, hc, map_clampQ_self hnn]
      · rintro ⟨x, hx, hlt⟩
        exact absurd (hnn x hx) (not_le.mpr hlt)
  · intro v wl wu fl fu area hdr
    unfold mkSpectrum
    cases h1 : validateFluxUnit v fu
    · rfl
    · cases h2 : validate_wavelengths wl
      · rfl
      · simp only [ok_bind]
        have l1 : ((clampResult fl fu).1).length = fl.length := clampResult_length fl fu
        have l2 : ((clampResult (fl.map clampQ) fu).1).length = fl.length := by
          rw [clampResult_length, List.length_map]
        rw [l1, l2]
        split
        · rfl
        · rfl

/-! ### Self-resampling -/

theorem ascB_chain : ∀ {w : List ℚ}, ascB w = true ↔ List.Chain' (· < ·) w
  | [] => by simp [ascB]
  | [x] => by simp [ascB]
  | x :: y :: t => by
      rw [show ascB (x :: y :: t) = (decide (x < y) && ascB (y :: t)) from rfl,
          Bool.and_eq_true, decide_eq_true_eq, List.chain'_cons]
      exact and_congr_right (fun _ => ascB_chain)

theorem descB_chain : ∀ {w : List ℚ}, descB w = true ↔ List.Chain' (· > ·) w
  | [] => by simp [descB]
  | [x] => by simp [descB]
  | x :: y :: t => by
      rw [show descB (x :: y :: t) = (decide (y < x) && descB (y :: t)) from rfl,
          Bool.and_eq_true, decide_eq_true_eq, List.chain'_cons]
      exact and_congr_right (fun _ => descB_chain)

theorem validate_wavelengths_ok_mono {w : List ℚ}
    (h : validate_wavelengths w = .ok ()) :
    List.Chain' (· < ·) w ∨ List.Chain' (· > ·) w := by
  unfold validate_wavelengths at h
  split at h
  · rcases Bool.or_eq_true _ _ |>.mp (by assumption) with ha | hd
    · exact Or.inl (ascB_chain.mp ha)
    · exact Or.inr (descB_chain.mp hd)
  · split at h <;> cases h

theorem validate_wavelengths_ok_pos {w : List ℚ}
    (h : validate_wavelengths w = .ok ()) : ∀ x ∈ w, 0 < x := by
  unfold validate_wavelengths at h
  split at h
  · split at h
    · intro x hx
      have := List.all_eq_true.mp (by assumption) x hx
      exact of_decide_eq_true this
    · cases h
  · split at h <;> cases h

theorem chainLt_head_lt {a : ℚ} {l : List ℚ}
    (h : List.Chain' (· < ·) (a :: l)) :
    ∀ i (hi : i < l.length), a < l[i] := by
  intro i hi
  have hp := (List.chain'_iff_pairwise.mp h)
  have := (List.pairwise_cons.mp hp).1
  exact this l[i] (l.getElem_mem hi)

theorem getLastD_irrel {l : List ℚ} (h : l ≠ []) (d d' : ℚ) :
    l.getLastD d = l.getLastD d' := by
  cases l with
  | nil => exact absurd rfl h
  | cons a t => rw [List.getLastD_cons, List.getLastD_cons]

theorem chain_head_lt_last (x : ℚ) (l : List ℚ)
    (h : List.Chain' (· < ·) (x :: l)) (hne : l ≠ []) (d : ℚ) :
    x < l.getLastD d := by
  induction l generalizing x d with
  | nil => exact absurd rfl hne
  | cons y t ih =>
      rw [List.getLastD_cons]
      cases t with
      | nil => exact (List.chain'_cons.mp h).1
      | cons z t2 =>
          exact lt_trans (List.chain'_cons.mp h).1
            (ih y (List.chain'_cons.mp h).2 (by simp) y)

theorem chain_last_lt_head (x : ℚ) (l : List ℚ)
    (h : List.Chain' (· > ·) (x :: l)) (hne : l ≠ []) (d : ℚ) :
    l.getLastD d < x := by
  induction l generalizing x d with
  | nil => exact absurd rfl hne
  | cons y t ih =>
      rw [List.getLastD_cons]
      cases t with
      | nil => exact (List.chain'_cons.mp h).1
      | cons z t2 =>
          exact lt_trans (ih y (List.chain'_cons.mp h).2 (by simp) y)
            (List.chain'_cons.mp h).1

theorem npInterp_self_get :
    ∀ (xp fp : List ℚ), List.Chain' (· < ·) xp → xp.length = fp.length →
      ∀ i (hi : i < xp.length) (hi2 : i < fp.length),
        npInterp xp[i] xp fp = fp[i] := by
  intro xp
  induction xp with
  | nil =>
      intro fp _ _ i hi
      exact absurd hi (by simp)
  | cons x0 tl ih =>
      intro fp hch hlen i hi hi2
      cases fp with
      | nil => exact absurd hlen (by simp)
      | cons y0 ft =>
          cases tl with
          | nil =>
              cases ft with
              | nil =>
                  have h0 : i = 0 := by simp at hi; omega
                  subst h0
                  rfl
              | cons y1 ys => simp at hlen
          | cons x1 xs =>
              cases ft with
              | nil => simp at hlen
              | cons y1 ys =>
                  have hxy : xs.length = ys.length := by simp at hlen; omega
                  match i, hi, hi2 with
                  | 0, _, _ =>
                      show npInterp x0 (x0 :: x1 :: xs) (y0 :: y1 :: ys) = y0
                      unfold npInterp
                      rw [if_pos le_rfl]
                  | 1, _, _ =>
                      have h01 : x0 < x1 := (List.chain'_cons.mp hch).1
                      show npInterp x1 (x0 :: x1 :: xs) (y0 :: y1 :: ys) = y1
                      unfold npInterp
                      rw [if_neg (not_le.mpr h01), if_pos le_rfl,
                          mul_div_assoc, div_self (sub_ne_zero.mpr (ne_of_gt h01)),
                          mul_one, add_sub_cancel]
                  | (j + 2), hi, hi2 =>
                      have hjx : j < xs.length := by simp at hi; omega
                      have hjy : j < ys.length := by omega
                      simp only [List.getElem_cons_succ]
                      have hz0 : x0 < xs[j] := by
                        have h := chainLt_head_lt hch (j + 1) (by simp; omega)
                        simpa using h
                      have hz1 : x1 < xs[j] := by
                        have h := chainLt_head_lt (List.chain'_cons.mp hch).2 j
                          (by simpa using hjx)
                        simpa using h
                      unfold npInterp
                      rw [if_neg (not_le.mpr hz0), if_neg (not_le.mpr hz1)]
                      have h := ih (y1 :: ys) (List.chain'_cons.mp hch).2
                        (by simp [hxy]) (j + 1) (by simp; omega) (by simp; omega)
                      simpa using h

theorem map_npInterp_self {xp fp : List ℚ} (h : List.Chain' (· < ·) xp)
    (hl : xp.length = fp.length) :
    xp.map (fun x => npInterp x xp fp) = fp := by
  apply List.ext_getElem (by simpa using hl)
  intro i h1 h2
  rw [List.getElem_map]
  exact npInterp_self_get xp fp h hl i (by simpa using h1) h2

theorem resampleValues_self {w fl : List ℚ}
    (hw : List.Chain' (· < ·) w ∨ List.Chain' (· > ·) w)
    (hl : w.length = fl.length) :
    resampleValues w w fl = fl := by
  match w, fl, hl with
  | [], [], _ =>
      simp [resampleValues, resampleCore]
  | [x], [y], _ =>
      simp [resampleValues, resampleCore, npInterp]
  | x :: y :: t, f1 :: f2 :: ft, hl =>
      rcases hw with hasc | hdesc
      · have hlt : (x :: y :: t).headD 0 < (x :: y :: t).getLastD 0 := by
          rw [List.headD_cons, List.getLastD_cons]
          exact chain_head_lt_last x (y :: t) hasc (by simp) x
        unfold resampleValues resampleCore
        rw [decide_eq_true hlt, if_pos rfl, if_pos rfl, if_pos rfl]
        exact map_npInterp_self hasc hl
      · have hgt : (x :: y :: t).getLastD 0 < (x :: y :: t).headD 0 := by
          rw [List.headD_cons, List.getLastD_cons]
          exact chain_last_lt_head x (y :: t) hdesc (by simp) x
        unfold resampleValues resampleCore
        rw [decide_eq_false (not_lt.mpr (le_of_lt hgt)), if_pos rfl,
            if_neg (by simp), if_neg (by simp)]
        rw [map_npInterp_self (List.chain'_reverse.mpr hdesc) (by simpa using hl),
            List.reverse_reverse]
  | x :: y :: t, [], hl => exact absurd hl (by simp)
  | x :: y :: t, [f], hl => exact absurd hl (by simp)

/-- C6: resampling a valid spectrum onto its own wavelength grid returns its
own value array exactly, for ascending and descending grids alike. -/
theorem claim_C6 (s : Spectrum) (hv : Valid s) :
    s.resample s.wave s.waveUnit = .ok s.flux := by
  unfold Spectrum.resample
  rw [hv.2.1, ok_bind,
      show convert_wave_values s.waveUnit s.waveUnit s.wave = s.wave
        from if_pos rfl,
      resampleValues_self (validate_wavelengths_ok_mono hv.2.1) hv.2.2.1]

/-- A descending-grid source spectrum. -/
def wdesc : Spectrum := { wsrc with wave := [4000, 3000, 2000, 1000], flux := [1, 2, 3, 4] }

/-- Witness for C6 on the concrete descending spectrum `wdesc`. -/
theorem claim_C6_witness :
    Valid wdesc ∧ wdesc.resample wdesc.wave wdesc.waveUnit = .ok wdesc.flux :=
  ⟨by decide, claim_C6 wdesc (by decide)⟩

/-- A spectrum identity operation on a scalar: shared argument for C7. -/
theorem scalar_id_op (s : Spectrum) (hv : Valid s) (op : OpType) (x : ℚ)
    (hid : scalarApply op s.flux x = s.flux) :
    ∃ r, operate_on s (.scalar x) op = .ok r ∧ r.wave = s.wave ∧
      r.flux = s.flux ∧
      lookupStr "expr" r.metadata = some (className s.variant) := by
  rw [operate_on_scalar, hid]
  unfold opFinish
  have hsome : (lookupStr "expr" (pyUpdate [] s.metadata)).isSome = true :=
    lookup_pyUpdate_isSome (Or.inr hv.2.2.2.2)
  have hnone : (lookupStr "expr" (pyUpdate [] s.metadata)).isNone = false := by
    cases hx : lookupStr "expr" (pyUpdate [] s.metadata)
    · rw [hx] at hsome; cases hsome
    · rfl
  rw [if_neg (by simp [hnone])]
  rw [mkSpectrum_eq_ok s.primary_area _ hv.1 hv.2.1 hv.2.2.1]
  refine ⟨_, rfl, rfl, ?_, ?_⟩
  · show (clampResult s.flux s.fluxUnit).1 = s.flux
    rw [clampResult_of_nonneg _ hv.2.2.2.1]
  · show lookupStr "expr"
        (if (lookupStr "expr"
              (eraseKey "expr" (pyUpdate [] s.metadata))).isNone then _ else _) =
      some (className s.variant)
    rw [if_pos (by rw [lookup_eraseKey_self]; rfl), lookup_pySet_self]

/-- C7: adding the scalar 0 and multiplying by the scalar 1 both succeed on
any valid spectrum and return a spectrum with the same wavelength and value
arrays (exactly, in the rational embedding), whose metadata `expr` key is
re-derived by the constructor as the variant's class name. -/
theorem claim_C7 (s : Spectrum) (hv : Valid s) :
    (∃ r, operate_on s (.scalar 0) .add = .ok r ∧ r.wave = s.wave ∧
       r.flux = s.flux ∧
       lookupStr "expr" r.metadata = some (className s.variant)) ∧
    (∃ r, operate_on s (.scalar 1) .mul = .ok r ∧ r.wave = s.wave ∧
       r.flux = s.flux ∧
       lookupStr "expr" r.metadata = some (className s.variant)) :=
  ⟨scalar_id_op s hv .add 0 (by simp [scalarApply]),
   scalar_id_op s hv .mul 1 (by simp [scalarApply])⟩

/-- Witness for C7 on the concrete spectrum `wsrc`. -/
theorem claim_C7_witness :
    Valid wsrc ∧
    (∃ r, operate_on wsrc (.scalar 0) .add = .ok r ∧ r.wave = wsrc.wave ∧
       r.flux = wsrc.flux ∧
       lookupStr "expr" r.metadata = some (className wsrc.variant)) ∧
    (∃ r, operate_on wsrc (.scalar 1) .mul = .ok r ∧ r.wave = wsrc.wave ∧
       r.flux = wsrc.flux ∧
       lookupStr "expr" r.metadata = some (className wsrc.variant)) :=
  ⟨by decide, (claim_C7 wsrc (by decide)).1, (claim_C7 wsrc (by decide)).2⟩

theorem headD_append_of_ne_nil {l l' : List ℚ} (h : l ≠ []) (d : ℚ) :
    (l ++ l').headD d = l.headD d := by
  cases l with
  | nil => exact absurd rfl h
  | cons a t => rfl

/-- C10: tapering a spectrum whose first and last value entries are zero
leaves it unchanged, and tapering is idempotent: a second taper of any
successfully tapered spectrum returns it unchanged. -/
theorem claim_C10 :
    (∀ s : Spectrum, s.flux ≠ [] → s.flux.headD 0 = 0 →
        s.flux.getLastD 0 = 0 → s.taper = .ok s) ∧
    (∀ s t : Spectrum, s.taper = .ok t → t.taper = .ok t) := by
  have hpart1 : ∀ s : Spectrum, s.flux ≠ [] → s.flux.headD 0 = 0 →
      s.flux.getLastD 0 = 0 → s.taper = .ok s := by
    intro s hne h0 hl
    unfold Spectrum.taper
    rw [if_neg hne, if_neg (by rw [h0]; simp), ok_bind,
        if_neg (by rw [show ((s.wave, s.flux).2).getLastD 0 = s.flux.getLastD 0 from rfl,
                       hl]; simp),
        ok_bind]
  refine ⟨hpart1, ?_⟩
  intro s t h
  unfold Spectrum.taper at h
  split at h
  · cases h
  · obtain ⟨wf, h1, h⟩ := exBindOk h
    obtain ⟨wf2, h2, h⟩ := exBindOk h
    have ht : t = { s with wave := wf2.1, flux := wf2.2 } :=
      ((Except.ok.injEq _ _).mp h).symm
    have hne : s.flux ≠ [] := by assumption
    have hwf : wf.2 ≠ [] ∧ wf.2.headD 0 = 0 := by
      split at h1
      · split at h1
        · cases h1
        · have := ((Except.ok.injEq _ _).mp h1).symm
          rw [this]
          exact ⟨by simp, rfl⟩
      · have := ((Except.ok.injEq _ _).mp h1).symm
        rw [this]
        exact ⟨hne, by simpa using (by assumption : ¬s.flux.headD 0 ≠ 0)⟩
    have hwf2 : wf2.2 ≠ [] ∧ wf2.2.headD 0 = 0 ∧ wf2.2.getLastD 0 = 0 := by
      split at h2
      · split at h2
        · cases h2
        · have := ((Except.ok.injEq _ _).mp h2).symm
          rw [this]
          refine ⟨by simp [hwf.1], ?_, by simp [List.getLastD_concat]⟩
          rw [headD_append_of_ne_nil hwf.1]
          exact hwf.2
      · have := ((Except.ok.injEq _ _).mp h2).symm
        rw [this]
        exact ⟨hwf.1, hwf.2, by simpa using (by assumption : ¬wf.2.getLastD 0 ≠ 0)⟩
    have h1t := hpart1 t
    rw [ht] at h1t ⊢
    exact h1t hwf2.1 hwf2.2.1 hwf2.2.2

/-! ### Redshift -/

theorem mul_pos_cancel_iff {c x : ℚ} (hc : 0 < c) : 0 < x * c ↔ 0 < x := by
  constructor
  · intro h
    by_contra hx
    push_neg at hx
    nlinarith
  · intro h
    exact mul_pos h hc

theorem ascB_map_mul {c : ℚ} (hc : 0 < c) :
    ∀ l : List ℚ, ascB (l.map (fun w => w * c)) = ascB l
  | [] => rfl
  | [_] => rfl
  | x :: y :: t => by
      show (decide (x * c < y * c) && ascB ((y :: t).map (fun w => w * c))) = _
      rw [ascB_map_mul hc (y :: t),
          decide_eq_decide.mpr (mul_lt_mul_right hc)]
      rfl

theorem descB_map_mul {c : ℚ} (hc : 0 < c) :
    ∀ l : List ℚ, descB (l.map (fun w => w * c)) = descB l
  | [] => rfl
  | [_] => rfl
  | x :: y :: t => by
      show (decide (y * c < x * c) && descB ((y :: t).map (fun w => w * c))) = _
      rw [descB_map_mul hc (y :: t),
          decide_eq_decide.mpr (mul_lt_mul_right hc)]
      rfl

theorem allPos_map_mul {c : ℚ} (hc : 0 < c) :
    ∀ l : List ℚ,
      (l.map (fun w => w * c)).all (fun x => decide (0 < x)) =
        l.all (fun x => decide (0 < x))
  | [] => rfl
  | x :: t => by
      rw [List.map_cons, List.all_cons, List.all_cons, allPos_map_mul hc t,
          decide_eq_decide.mpr (mul_pos_cancel_iff hc)]

theorem validate_wavelengths_map_mul {c : ℚ} (hc : 0 < c) {wl : List ℚ}
    (h : validate_wavelengths wl = .ok ()) :
    validate_wavelengths (wl.map (fun w => w * c)) = .ok () := by
  unfold validate_wavelengths at h ⊢
  split at h
  · split at h
    · rw [if_pos, if_pos]
      · rw [allPos_map_mul hc]
        assumption
      · rw [ascB_map_mul hc, descB_map_mul hc]
        assumption
    · cases h
  · split at h <;> cases h

theorem validate_wavelengths_map_div {c : ℚ} (hc : 0 < c) {wl : List ℚ}
    (h : validate_wavelengths wl = .ok ()) :
    validate_wavelengths (wl.map (fun w => w / c)) = .ok () := by
  have he : (fun w : ℚ => w / c) = (fun w : ℚ => w * c⁻¹) :=
    funext fun w => div_eq_mul_inv w c
  rw [he]
  exact validate_wavelengths_map_mul (inv_pos.mpr hc) h

/-- C8 (amended): on a valid source spectrum, `apply_redshift` with a
numeric redshift `z` such that `1 + z` is positive succeeds and scales a
length-type grid by exactly `(1 + z)` and divides a frequency- or
wavenumber-type grid by `(1 + z)`; at `z = 0` the returned wavelengths
equal the original; a non-numeric redshift is rejected with a domain error.
(As stated, the claim fails for numeric `z ≤ -1`, where the scaled grid no
longer passes wavelength validation — see the counterexample.  The embedding
is purely functional, so the original spectrum is unmodified by
construction.) -/
theorem claim_C8 (s : Spectrum) (hv : Valid s) (_hsrc : s.variant = .source) :
    (∀ z : ℚ, 0 < 1 + z →
       ∃ r, s.apply_redshift (.num z) = .ok r ∧
         r.wave = (if s.waveUnit = .length then
                     s.wave.map (fun w => w * (1 + z))
                   else s.wave.map (fun w => w / (1 + z)))) ∧
    (∃ r, s.apply_redshift (.num 0) = .ok r ∧ r.wave = s.wave) ∧
    isSynphotErr (s.apply_redshift .nonNumeric) = true := by
  have hmain : ∀ z : ℚ, 0 < 1 + z →
      ∃ r, s.apply_redshift (.num z) = .ok r ∧
        r.wave = (if s.waveUnit = .length then
                    s.wave.map (fun w => w * (1 + z))
                  else s.wave.map (fun w => w / (1 + z))) := by
    intro z hz
    unfold Spectrum.apply_redshift
    cases hx : lookupStr "expr" s.metadata with
    | none =>
        have hsome := hv.2.2.2.2
        rw [hx] at hsome
        exact absurd hsome (by simp)
    | some e =>
        have hW : validate_wavelengths
            (if s.waveUnit = .length then s.wave.map (fun w => w * (1 + z))
             else s.wave.map (fun w => w / (1 + z))) = .ok () := by
          split
          · exact validate_wavelengths_map_mul hz hv.2.1
          · exact validate_wavelengths_map_div hz hv.2.1
        have hL : (if s.waveUnit = .length then
              s.wave.map (fun w => w * (1 + z))
            else s.wave.map (fun w => w / (1 + z))).length = s.flux.length := by
          split <;> rw [List.length_map, hv.2.2.1]
        show ∃ r,
            mkSpectrum s.variant
              (if s.waveUnit = .length then s.wave.map (fun w => w * (1 + z))
               else s.wave.map (fun w => w / (1 + z)))
              s.waveUnit s.flux s.fluxUnit s.primary_area
              (pySet s.metadata "expr" (e ++ " at z=" ++ toString z)) = .ok r ∧
            r.wave = (if s.waveUnit = .length then
                        s.wave.map (fun w => w * (1 + z))
                      else s.wave.map (fun w => w / (1 + z)))
        rw [mkSpectrum_eq_ok s.primary_area _ hv.1 hW hL]
        exact ⟨_, rfl, rfl⟩
  refine ⟨hmain, ?_, ?_⟩
  · obtain ⟨r, hr, hw⟩ := hmain 0 (by norm_num)
    refine ⟨r, hr, ?_⟩
    rw [hw]
    split <;> simp
  · rfl

/-- Counterexample to C8 as frozen: at the numeric redshift `z = -2` on the
valid source spectrum `wsrc`, `apply_redshift` raises a zero-wavelength
validation error instead of returning a spectrum with wavelengths
`wave × (1 + z)`. -/
theorem claim_C8_counterexample :
    Valid wsrc ∧ wsrc.variant = .source ∧
    wsrc.apply_redshift (.num (-2)) = .error .zeroWavelength := by
  refine ⟨by decide, rfl, ?_⟩
  norm_num [Spectrum.apply_redshift, wsrc, lookupStr, mkSpectrum,
    validate_wavelengths, ascB, descB, adjEqB, validateFluxUnit, pySet,
    clampResult, FluxUnit.decomposeMag]

/-- Witness for the amended C8 at `z = 1` on `wsrc`. -/
theorem claim_C8_witness :
    Valid wsrc ∧ wsrc.variant = .source ∧ (0 : ℚ) < 1 + 1 ∧
    (∃ r, wsrc.apply_redshift (.num 1) = .ok r ∧
       r.wave = (if wsrc.waveUnit = .length then
                   wsrc.wave.map (fun w => w * (1 + 1))
                 else wsrc.wave.map (fun w => w / (1 + 1)))) :=
  ⟨by decide, rfl, by norm_num,
   (claim_C8 wsrc (by decide) rfl).1 1 (by norm_num)⟩

/-- The flux array used by the C10 witness: zero at both ends. -/
def wtap : Spectrum := { wsrc with flux := [0, 1, 1, 0] }

/-- Witness for C10: tapering the already-tapered `wtap` is the identity. -/
theorem claim_C10_witness :
    wtap.flux ≠ [] ∧ wtap.flux.headD 0 = 0 ∧ wtap.flux.getLastD 0 = 0 ∧
    wtap.taper = .ok wtap :=
  ⟨by decide, by decide, by decide,
   claim_C10.1 wtap (by decide) (by decide) (by decide)⟩

/-- Witness for C5 applying the general clause at the concrete input. -/
theorem claim_C5_witness :
    FluxUnit.flam.decomposeMag = false ∧
    spC5.flux = [(-1 : ℚ), 2, 3].map clampQ ∧
    lookupStr "NegativeFlux" spC5.warnings =
      some (negFluxMsg
        (([(-1 : ℚ), 2, 3].filter (fun x => decide (x < 0))).length)
        ([(-1 : ℚ), 2, 3].length)) := by
  have h := (claim_C5).1 .source [1000, 2000, 3000] .length [-1, 2, 3] .flam
    none [] spC5 rfl (by decide)
  exact ⟨rfl, h.1, h.2 ⟨-1, by simp, by norm_num⟩⟩

/-! ### Overlap classification claims -/

theorem foldl_min_le_init (l : List ℚ) (init : ℚ) : l.foldl min init ≤ init := by
  induction l generalizing init with
  | nil => exact le_rfl
  | cons x t ih => exact le_trans (ih (min init x)) (min_le_left _ _)

theorem foldl_max_ge_init (l : List ℚ) (init : ℚ) : init ≤ l.foldl max init := by
  induction l generalizing init with
  | nil => exact le_rfl
  | cons x t ih => exact le_trans (le_max_left _ _) (ih (max init x))

theorem wmin_le_wmax (a : List ℚ) : wmin a ≤ wmax a :=
  le_trans (foldl_min_le_init a (a.headD 0)) (foldl_max_ge_init a (a.headD 0))

theorem overlap_status_self (a : List ℚ) : overlap_status a a = .full := by
  unfold overlap_status
  split_ifs with h1 h2 h3
  · rfl
  · rfl
  · exact absurd ⟨le_rfl, le_rfl⟩ h2
  · exact absurd ⟨le_rfl, le_rfl⟩ h2

theorem overlap_status_contained {a b : List ℚ} (ha : a ≠ []) (hb : b ≠ [])
    (h1 : wmin b ≤ wmin a) (h2 : wmax a ≤ wmax b) :
    overlap_status a b = .full := by
  unfold overlap_status
  rw [if_neg (by simp [List.isEmpty_iff, ha]),
      if_neg (by simp [List.isEmpty_iff, hb]), if_pos ⟨h1, h2⟩]

theorem overlap_status_disjoint {a b : List ℚ} (ha : a ≠ []) (hb : b ≠ [])
    (h : wmax a < wmin b ∨ wmax b < wmin a) :
    overlap_status a b = .noOverlap := by
  unfold overlap_status
  rw [if_neg (by simp [List.isEmpty_iff, ha]),
      if_neg (by simp [List.isEmpty_iff, hb]), if_neg, if_pos h]
  rintro ⟨hba, hab⟩
  rcases h with h | h
  · exact absurd (lt_of_le_of_lt (le_trans hba (wmin_le_wmax a)) h)
      (lt_irrefl _)
  · exact absurd (lt_of_le_of_lt (le_trans (wmin_le_wmax a) hab) h)
      (lt_irrefl _)

/-- C3: `check_overlap` on the non-zero wavelength subsets returns `full`
when `self`'s subset range is contained in (or equal to) the other's — in
particular `check_overlap(a, a)` is `full` for every spectrum; `none` when
the two ranges are disjoint; in the remaining in-between case, after the
total integrated flux is validated, it returns `partial_most` exactly when
the excluded fraction is strictly below the threshold and `partial_notmost`
otherwise; and a zero total integrated flux during significance testing
raises a domain error. -/
theorem claim_C3 :
    (∀ (s : Spectrum) (t : ℚ), s.check_overlap s t = .ok .full) ∧
    (∀ (s o : Spectrum) (t : ℚ),
        nonzero_waves s ≠ [] → other_nzw s o ≠ [] →
        wmin (other_nzw s o) ≤ wmin (nonzero_waves s) →
        wmax (nonzero_waves s) ≤ wmax (other_nzw s o) →
        s.check_overlap o t = .ok .full) ∧
    (∀ (s o : Spectrum) (t : ℚ),
        nonzero_waves s ≠ [] → other_nzw s o ≠ [] →
        (wmax (nonzero_waves s) < wmin (other_nzw s o) ∨
         wmax (other_nzw s o) < wmin (nonzero_waves s)) →
        s.check_overlap o t = .ok .noOverlap) ∧
    (∀ (s o : Spectrum) (t ex : ℚ),
        overlap_status (nonzero_waves s) (other_nzw s o) = .splitOverlap →
        validate_totalflux (trapezoid_integration s.wave s.flux) = .ok () →
        excluded_flux s (nonzero_waves s) (other_nzw s o) = .ok ex →
        s.check_overlap o t =
          .ok (if ex / trapezoid_integration s.wave s.flux < t then
                 .mostlyIn
               else .notMostlyIn)) ∧
    (∀ (s o : Spectrum) (t : ℚ),
        overlap_status (nonzero_waves s) (other_nzw s o) = .splitOverlap →
        trapezoid_integration s.wave s.flux = 0 →
        isSynphotErr (s.check_overlap o t) = true) := by
  refine ⟨?_, ?_, ?_, ?_, ?_⟩
  · intro s t
    unfold Spectrum.check_overlap
    rw [show other_nzw s s = nonzero_waves s from if_pos rfl,
        overlap_status_self]
  · intro s o t ha hb h1 h2
    unfold Spectrum.check_overlap
    rw [overlap_status_contained ha hb h1 h2]
  · intro s o t ha hb h
    unfold Spectrum.check_overlap
    rw [overlap_status_disjoint ha hb h]
  · intro s o t ex hst hval hex
    unfold Spectrum.check_overlap
    rw [hst, hval, ok_bind, hex, ok_bind]
    by_cases hc : ex / trapezoid_integration s.wave s.flux < t <;>
      simp [hc]
  · intro s o t hst h0
    unfold Spectrum.check_overlap
    rw [hst, h0]
    rfl

/-- A flat source spectrum partially overlapping `wov2`. -/
def wov : Spectrum := { wsrc with wave := [1000, 2000, 3000], flux := [1, 1, 1] }

/-- A flat passband covering `[2000, 4000]`. -/
def wov2 : Spectrum := { wband with wave := [2000, 3000, 4000], flux := [1, 1, 1] }

/-- Witness for C3: a concrete incomplete overlap where half of the flux lies
outside the other range, classified `partial_notmost` at the 1 percent
threshold. -/
theorem claim_C3_witness :
    overlap_status (nonzero_waves wov) (other_nzw wov wov2) = .splitOverlap ∧
    validate_totalflux (trapezoid_integration wov.wave wov.flux) = .ok () ∧
    excluded_flux wov (nonzero_waves wov) (other_nzw wov wov2) = .ok 1000 ∧
    wov.check_overlap wov2 (1 / 100) = .ok .notMostlyIn := by
  have h1 : overlap_status (nonzero_waves wov) (other_nzw wov wov2) =
      .splitOverlap := by decide
  have h2 : validate_totalflux (trapezoid_integration wov.wave wov.flux) =
      .ok () := by
    norm_num [validate_totalflux, trapezoid_integration, wov, wsrc]
  have h3 : excluded_flux wov (nonzero_waves wov) (other_nzw wov wov2) =
      .ok 1000 := by
    norm_num [excluded_flux, Spectrum.integrate, Spectrum.resample,
      validate_wavelengths, ascB, descB, adjEqB, wmin, wmax, nonzero_waves,
      other_nzw, convert_wave_values, resampleValues, resampleCore, npInterp,
      trapezoid_integration, wov, wov2, wband, wsrc, List.foldl_cons,
      List.foldl_nil, min_def, max_def, List.filterMap_cons, List.filterMap_nil]
  have h := (claim_C3).2.2.2.1 wov wov2 (1 / 100) 1000 h1 h2 h3
  rw [show (if (1000 : ℚ) / trapezoid_integration wov.wave wov.flux < 1 / 100
        then OverlapStatus.mostlyIn else OverlapStatus.notMostlyIn) =
      OverlapStatus.notMostlyIn by
    norm_num [trapezoid_integration, wov, wsrc]] at h
  exact ⟨h1, h2, h3, h⟩

/-! ### Renormalization claims -/

theorem validate_wavelengths_err {wl : List ℚ} {e : SynErr}
    (h : validate_wavelengths wl = .error e) : e.isOverlapGate = false := by
  unfold validate_wavelengths at h
  split at h
  · split at h
    · cases h
    · cases h; rfl
  · split at h <;> (cases h; rfl)

theorem validateFluxUnit_err {v : Variant} {fu : FluxUnit} {e : SynErr}
    (h : validateFluxUnit v fu = .error e) : e.isOverlapGate = false := by
  cases v <;> cases fu <;>
    first
      | (injection h with h2; rw [← h2]; rfl)
      | exact absurd h (by simp [validateFluxUnit])

theorem mkSpectrum_err {v : Variant} {wl : List ℚ} {wu : WaveUnit}
    {fl : List ℚ} {fu : FluxUnit} {area : Option ℚ}
    {hdr : List (String × String)} {e : SynErr}
    (h : mkSpectrum v wl wu fl fu area hdr = .error e) :
    e.isOverlapGate = false := by
  unfold mkSpectrum at h
  rcases exBindErr h with h | ⟨a, -, h⟩
  · exact validateFluxUnit_err h
  · rcases exBindErr h with h | ⟨b, -, h⟩
    · exact validate_wavelengths_err h
    · split at h
      · cases h; rfl
      · cases h

theorem resample_err {s : Spectrum} {wl : List ℚ} {u : WaveUnit} {e : SynErr}
    (h : s.resample wl u = .error e) : e.isOverlapGate = false := by
  unfold Spectrum.resample at h
  rcases exBindErr h with h | ⟨a, -, h⟩
  · exact validate_wavelengths_err h
  · cases h

theorem opFinish_err {s : Spectrum} {base : List (String × String)}
    {nw res : List ℚ} {e : SynErr}
    (h : opFinish s base nw res = .error e) : e.isOverlapGate = false := by
  unfold opFinish at h
  split at h
  · cases h; rfl
  · exact mkSpectrum_err h

theorem convert_flux_err {s : Spectrum} {u : FluxUnit} {e : SynErr}
    (h : s.convert_flux u = .error e) : e.isOverlapGate = false := by
  unfold Spectrum.convert_flux at h
  split at h
  · cases h
  · rcases exBindErr h with h | ⟨a, -, h⟩
    · exact validateFluxUnit_err h
    · cases h

theorem rhsFlux_err {s o : Spectrum} {op : OpType} {nw : List ℚ} {e : SynErr}
    (h : rhsFlux s o op nw = .error e) : e.isOverlapGate = false := by
  unfold rhsFlux at h
  split at h
  · rcases exBindErr h with h | ⟨o2, -, h⟩
    · split at h
      · cases h
      · rcases exBindErr h with h | ⟨u2, -, h⟩
        · exact validateFluxUnit_err h
        · cases h
    · exact resample_err h
  · exact resample_err h

theorem operate_on_err {s : Spectrum} {other : Operand} {op : OpType}
    {e : SynErr} (h : operate_on s other op = .error e) :
    e.isOverlapGate = false := by
  cases other with
  | scalar x =>
      rw [operate_on_scalar] at h
      exact opFinish_err h
  | spec o =>
      have h' : operate_on_spec s o op = .error e := h
      unfold operate_on_spec at h'
      split at h'
      · cases h'; rfl
      · split at h'
        · cases h'; rfl
        · split at h'
          · cases h'; rfl
          · split at h'
            · cases h'; rfl
            · split at h'
              · cases h'; rfl
              · rcases exBindErr h' with h' | ⟨f1, -, h'⟩
                · exact resample_err h'
                · rcases exBindErr h' with h' | ⟨f2, -, h'⟩
                  · exact rhsFlux_err h'
                  · exact opFinish_err h'

theorem validate_totalflux_err {tf : ℚ} {e : SynErr}
    (h : validate_totalflux tf = .error e) : e.isOverlapGate = false := by
  unfold validate_totalflux at h
  split at h
  · cases h; rfl
  · cases h

theorem add_mag_err {s : Spectrum} {m : ℚ} {e : SynErr}
    (h : s.add_mag m = .error e) : e.isOverlapGate = false := by
  unfold Spectrum.add_mag at h
  split at h <;> exact operate_on_err h

theorem flat_spectrum_err {fu : FluxUnit} {wl : List ℚ} {wu : WaveUnit}
    {area : Option ℚ} {e : SynErr}
    (h : flat_spectrum fu wl wu area = .error e) : e.isOverlapGate = false := by
  unfold flat_spectrum at h
  exact mkSpectrum_err h

theorem renormCore_err {s : Spectrum} {rv : RenormVal} {band : Spectrum}
    {vg : Option Spectrum} {warns : List (String × String)} {e : SynErr}
    (h : renormCore s rv band vg warns = .error e) : e.isOverlapGate = false := by
  unfold renormCore at h
  rcases exBindErr h with h | ⟨sp, -, h⟩
  · exact operate_on_err h
  · rcases exBindErr h with h | ⟨ts, -, h⟩
    · split at h
      · cases h
      · rcases exBindErr h with h | ⟨stdspec, -, h⟩
        · split at h
          · split at h
            · split at h
              · cases h
              · cases h; rfl
            · cases h; rfl
          · exact flat_spectrum_err h
        · rcases exBindErr h with h | ⟨up, -, h⟩
          · exact operate_on_err h
          · rcases exBindErr h with h | ⟨up2, -, h⟩
            · exact convert_flux_err h
            · cases h
    · rcases exBindErr h with h | ⟨u3, -, h⟩
      · exact validate_totalflux_err h
      · rcases exBindErr h with h | ⟨newsp, -, h⟩
        · split at h
          · exact add_mag_err h
          · exact operate_on_err h
        · cases h

theorem renormCore_ok_inv {s : Spectrum} {rv : RenormVal} {band : Spectrum}
    {vg : Option Spectrum} {warns : List (String × String)} {r : Spectrum}
    (h : renormCore s rv band vg warns = .ok r) :
    ∃ base : Spectrum,
      r = { base with warnings := pyUpdate base.warnings warns } ∧
      (base.warnings = [] ∨ ∃ m, base.warnings = [("NegativeFlux", m)]) := by
  unfold renormCore at h
  obtain ⟨sp, -, h⟩ := exBindOk h
  obtain ⟨ts, -, h⟩ := exBindOk h
  obtain ⟨u3, -, h⟩ := exBindOk h
  obtain ⟨newsp, hn, h⟩ := exBindOk h
  refine ⟨newsp, ((Except.ok.injEq _ _).mp h).symm, ?_⟩
  split at hn
  · unfold Spectrum.add_mag at hn
    split at hn <;> exact operate_on_ok_warnings hn
  · exact operate_on_ok_warnings hn

theorem lookup_fresh_warnings {w : List (String × String)}
    (h : w = [] ∨ ∃ m, w = [("NegativeFlux", m)]) :
    lookupStr "PartialRenorm" w = none := by
  rcases h with rfl | ⟨m, rfl⟩
  · rfl
  · rw [show lookupStr "PartialRenorm" [("NegativeFlux", m)] =
        (if "NegativeFlux" = "PartialRenorm" then some m else none) from rfl,
        if_neg (by decide)]

/-- C2: for `renorm` on a source spectrum with a passband band, classified
against the band at the hard-coded 1 percent threshold: a `none` overlap
fails with the disjoint error regardless of `force`; `partial_notmost`
without `force` fails with the PartialOverlap error; whenever `renorm`
returns a spectrum, that spectrum carries the non-fatal `PartialRenorm`
warning exactly when the classification was `partial_most`, or
`partial_notmost` with `force`; and in the three proceed cases any failure
of the remaining computation is never one of the two overlap-gate errors. -/
theorem claim_C2 (s band : Spectrum) (_hs : s.variant = .source)
    (hb : band.variant = .passband) :
    (∀ (rv : RenormVal) (force : Bool) (vg : Option Spectrum),
        band.check_overlap s (1 / 100) = .ok .noOverlap →
        isDisjointErr (s.renorm rv band force vg) = true) ∧
    (∀ (rv : RenormVal) (vg : Option Spectrum),
        band.check_overlap s (1 / 100) = .ok .notMostlyIn →
        isOverlapPartialErr (s.renorm rv band false vg) = true) ∧
    (∀ (rv : RenormVal) (force : Bool) (vg : Option Spectrum) (newsp : Spectrum),
        s.renorm rv band force vg = .ok newsp →
        ((lookupStr "PartialRenorm" newsp.warnings).isSome = true ↔
          (band.check_overlap s (1 / 100) = .ok .mostlyIn ∨
           (band.check_overlap s (1 / 100) = .ok .notMostlyIn ∧ force = true)))) ∧
    (∀ (rv : RenormVal) (force : Bool) (vg : Option Spectrum) (e : SynErr),
        (band.check_overlap s (1 / 100) = .ok .full ∨
         band.check_overlap s (1 / 100) = .ok .mostlyIn ∨
         (band.check_overlap s (1 / 100) = .ok .notMostlyIn ∧ force = true)) →
        s.renorm rv band force vg = .error e → e.isOverlapGate = false) := by
  have hnn : ¬band.variant ≠ .passband := not_ne_iff.mpr hb
  refine ⟨?_, ?_, ?_, ?_⟩
  · intro rv force vg hstat
    unfold Spectrum.renorm
    rw [if_neg hnn, hstat, ok_bind]
    rfl
  · intro rv vg hstat
    unfold Spectrum.renorm
    rw [if_neg hnn, hstat, ok_bind]
    rfl
  · intro rv force vg newsp h
    unfold Spectrum.renorm at h
    rw [if_neg hnn] at h
    obtain ⟨stat, hstat, h⟩ := exBindOk h
    obtain ⟨warns, hw, h⟩ := exBindOk h
    obtain ⟨base, hbase, hfresh⟩ := renormCore_ok_inv h
    have hlook : lookupStr "PartialRenorm" newsp.warnings =
        lookupStr "PartialRenorm" (pyUpdate base.warnings warns) := by
      rw [hbase]
    cases stat with
    | full =>
        injection hw with hw2
        rw [hlook, ← hw2, show pyUpdate base.warnings [] = base.warnings from rfl,
            lookup_fresh_warnings hfresh]
        constructor
        · intro hfalse
          cases hfalse
        · rintro (h1 | ⟨h1, -⟩) <;> (rw [hstat] at h1; exact absurd h1 (by decide))
    | mostlyIn =>
        injection hw with hw2
        rw [hlook, ← hw2, show pyUpdate base.warnings
              [("PartialRenorm", renormWarnMost)] =
            pySet base.warnings "PartialRenorm" renormWarnMost from rfl,
            lookup_pySet_self]
        exact ⟨fun _ => Or.inl hstat, fun _ => rfl⟩
    | notMostlyIn =>
        cases force with
        | false => cases hw
        | true =>
            injection hw with hw2
            rw [hlook, ← hw2, show pyUpdate base.warnings
                  [("PartialRenorm", renormWarnForce)] =
                pySet base.warnings "PartialRenorm" renormWarnForce from rfl,
                lookup_pySet_self]
            exact ⟨fun _ => Or.inr ⟨hstat, rfl⟩, fun _ => rfl⟩
    | noOverlap => cases hw
    | splitOverlap => cases hw
  · intro rv force vg e hstat h
    unfold Spectrum.renorm at h
    rw [if_neg hnn] at h
    rcases exBindErr h with h | ⟨stat, hstat2, h⟩
    · rcases hstat with h1 | h1 | ⟨h1, -⟩ <;> (rw [h] at h1; cases h1)
    · rcases hstat with h1 | h1 | ⟨h1, hf⟩
      · rw [hstat2] at h1
        injection h1 with h1
        subst h1
        exact renormCore_err (h : renormCore s rv band vg [] = .error e)
      · rw [hstat2] at h1
        injection h1 with h1
        subst h1
        exact renormCore_err
          (h : renormCore s rv band vg
            [("PartialRenorm", renormWarnMost)] = .error e)
      · rw [hstat2] at h1
        injection h1 with h1
        subst h1
        subst hf
        exact renormCore_err
          (h : renormCore s rv band vg
            [("PartialRenorm", renormWarnForce)] = .error e)

/-- A flat source spectrum far to the red of `wnear`. -/
def wfar : Spectrum := { wsrc with wave := [9000, 9100], flux := [1, 1] }

/-- A flat passband near the blue end, disjoint from `wfar`. -/
def wnear : Spectrum := { wband with wave := [1000, 1100], flux := [1, 1] }

/-- Witness for C2 at a concrete disjoint renormalization. -/
theorem claim_C2_witness :
    wfar.variant = .source ∧ wnear.variant = .passband ∧
    wnear.check_overlap wfar (1 / 100) = .ok .noOverlap ∧
    isDisjointErr (wfar.renorm (.num 2) wnear true none) = true :=
  ⟨rfl, rfl, by decide,
   (claim_C2 wfar wnear rfl rfl).1 (.num 2) true none (by decide)⟩
